import Mathlib

/-!
Verification development for the clause segmentation and semantic matching
subsystem (document parser, playbook loader / catalogue index, semantic
matcher). Each definition is a shallow embedding of the corresponding
Python source in `sandstone/`; machine floats are modelled by exact
rationals, the injected sentence-transformer embedding by an explicit
function argument, and the FAISS `IndexFlatL2` by exact squared-L2
nearest-neighbour search with the library's padding behaviour
(unfilled result slots hold label `-1` and distance `FLT_MAX`).
-/

namespace Sandstone

/-! ## Data model (`sandstone/models`) -/

/-- Embedding of `sandstone.models.playbook.PlaybookClause` (a Pydantic
model with nine required fields). -/
structure PlaybookClause where
  clause : String
  clause_definition : String
  is_required : Bool
  review_instruction : String
  ideal : String
  acceptable : String
  red_flag : String
  example_ideal_clause : String
  example_fallback_clause : String
deriving DecidableEq, Repr

/-- Embedding of `sandstone.models.document.DocumentClause`. -/
structure DocumentClause where
  text : String
  section_number : String
  section_title : Option String
deriving DecidableEq, Repr

/-- Embedding of `sandstone.models.redline.ClauseMatch`. -/
structure ClauseMatch where
  document_clause : DocumentClause
  playbook_clause : PlaybookClause
  similarity_score : ℚ
  rank : ℕ
deriving DecidableEq, Repr

/-! ## Python string helpers

`str.strip()` and `re.sub(r'\s+', ' ', s)` over ASCII whitespace. -/

/-- Characters matched by Python `\s` (ASCII range). -/
def isPySpace (c : Char) : Bool :=
  c == ' ' || c == '\t' || c == '\n' || c == '\r' || c == '\x0b' || c == '\x0c'

/-- Python `str.strip()` on a character list. -/
def pyStripList (l : List Char) : List Char :=
  ((l.dropWhile isPySpace).reverse.dropWhile isPySpace).reverse

/-- Python `str.strip()`. -/
def pyStrip (s : String) : String :=
  ⟨pyStripList s.data⟩

/-- Python `re.sub(r'\s+', ' ', s)`: collapse every maximal whitespace
run to a single space.  A whitespace character whose collapsed tail
already starts with the space produced by the rest of its run
contributes nothing; otherwise it opens a run and emits one space. -/
def collapseWs : List Char → List Char
  | [] => []
  | c :: rest =>
    let tail := collapseWs rest
    if isPySpace c then
      match tail with
      | ' ' :: _ => tail
      | _ => ' ' :: tail
    else c :: tail

/-- The content cleanup in `DocumentParser._extract_subsections`:
`content.strip()` followed by `re.sub(r'\s+', ' ', content)`. -/
def cleanContent (s : String) : String :=
  ⟨collapseWs (pyStripList s.data)⟩

/-! ## Python dict model

A Python `dict` with string keys, as an association list where insertion
overwrites the existing binding in place. -/

/-- Python `d[k] = v`. -/
def dictInsert {α : Type} (d : List (String × α)) (k : String) (v : α) :
    List (String × α) :=
  match d with
  | [] => [(k, v)]
  | (k0, v0) :: rest =>
    if k0 == k then (k, v) :: rest else (k0, v0) :: dictInsert rest k v

/-- Python `d.get(k)`: the value at the first (and, bindings being
unique under `dictInsert`, only) occurrence of the key. -/
def dictGet {α : Type} (d : List (String × α)) (k : String) : Option α :=
  match d with
  | [] => none
  | (k0, v) :: rest => if k0 == k then some v else dictGet rest k

/-! ## Document parser (`sandstone/services/document_parser.py`)

The two regex scans (`re.findall`) are modelled by their output: a list of
matched groups, handed to the functions below exactly as the Python code
receives them.  Everything the code does with those matches is embedded. -/

/-- Embedding of `DocumentParser._extract_section_titles`, lines 74-80:
given the `(section_num, title)` pairs produced by the title regex scan in
document order, build the section-title dict by `section_titles[num] =
title.strip()` in order, so that a later pair with the same number
overwrites an earlier one. -/
def extract_section_titles (ms : List (String × String)) :
    List (String × String) :=
  ms.foldl (fun d p => dictInsert d p.1 (pyStrip p.2)) []

/-- One match of the subsection regex: `(main_num, sub_num, content)`. -/
abbrev SubsectionMatch := String × String × String

/-- Embedding of `DocumentParser._extract_subsections`, lines 105-123:
for each `(main_num, sub_num, content)` match in document order, build the
address, resolve the parent title via `section_titles.get(main_num)`, clean
the content, silently drop it when shorter than 10 characters, and
otherwise emit a `DocumentClause`. -/
def extract_subsections (ms : List SubsectionMatch)
    (section_titles : List (String × String)) : List DocumentClause :=
  ms.filterMap (fun m =>
    let content := cleanContent m.2.2
    if content.length < 10 then none
    else some { text := content
                section_number := m.1 ++ "." ++ m.2.1
                section_title := dictGet section_titles m.1 })

/-! ## Playbook loader (`sandstone/services/playbook_loader.py`)

The JSON file contents are modelled as the parsed list of objects
(`json.load` output); Pydantic `PlaybookClause(**item)` is modelled by
field-by-field validation that fails on the first missing or ill-typed
required field.  The sentence-transformer is the injected deterministic
embedding function `encode`; FAISS `IndexFlatL2` is exact squared-L2
search. -/

/-- A parsed JSON value (the fragment needed for playbook items). -/
inductive JValue where
  | jstr (s : String)
  | jbool (b : Bool)
  | jnum (q : ℚ)
  | jnull
deriving DecidableEq, Repr

/-- One parsed JSON object from the playbook file. -/
abbrev JItem := List (String × JValue)

/-- Read a required string field, failing with the field name. -/
def jGetStr (item : JItem) (key : String) : Except String String :=
  match dictGet item key with
  | some (JValue.jstr s) => Except.ok s
  | _ => Except.error key

/-- Read a required boolean field, failing with the field name. -/
def jGetBool (item : JItem) (key : String) : Except String Bool :=
  match dictGet item key with
  | some (JValue.jbool b) => Except.ok b
  | _ => Except.error key

/-- Embedding of `PlaybookClause(**item)`: Pydantic validation of the nine
required fields, failing with the first offending field name. -/
def playbookClauseOfJson (item : JItem) : Except String PlaybookClause := do
  let clause ← jGetStr item "clause"
  let cdef ← jGetStr item "clause_definition"
  let isReq ← jGetBool item "is_required"
  let instr ← jGetStr item "review_instruction"
  let ideal ← jGetStr item "ideal"
  let acceptable ← jGetStr item "acceptable"
  let redFlag ← jGetStr item "red_flag"
  let exIdeal ← jGetStr item "example_ideal_clause"
  let exFallback ← jGetStr item "example_fallback_clause"
  pure { clause := clause
         clause_definition := cdef
         is_required := isReq
         review_instruction := instr
         ideal := ideal
         acceptable := acceptable
         red_flag := redFlag
         example_ideal_clause := exIdeal
         example_fallback_clause := exFallback }

/-- The list comprehension `[PlaybookClause(**item) for item in data]`:
items are validated in order and the first failure aborts the whole
comprehension before anything is assigned. -/
def validateItems : List JItem → Except String (List PlaybookClause)
  | [] => Except.ok []
  | item :: rest => do
    let c ← playbookClauseOfJson item
    let cs ← validateItems rest
    pure (c :: cs)

/-- The FAISS `IndexFlatL2`: a dimension and the stored vectors. -/
structure IndexFlatL2 where
  dim : ℕ
  vectors : List (List ℚ)
deriving DecidableEq, Repr

/-- The injected embedding call (`SentenceTransformer.encode` on one
text); failures of the external model propagate as exceptions. -/
abbrev EmbedFn := String → Except String (List ℚ)

/-- Batch `model.encode(texts)`: any failure aborts the whole call. -/
def encodeAll (encode : EmbedFn) : List String → Except String (List (List ℚ))
  | [] => Except.ok []
  | t :: ts => do
    let v ← encode t
    let vs ← encodeAll encode ts
    pure (v :: vs)

/-- The mutable fields of a `PlaybookLoader` instance. -/
structure LoaderState where
  clauses : List (String × PlaybookClause)
  clause_list : List PlaybookClause
  searchable_texts : List String
  embeddings : Option (List (List ℚ))
  index : Option IndexFlatL2
deriving DecidableEq, Repr

/-- `PlaybookLoader.__init__`: everything empty, no index. -/
def initialState : LoaderState :=
  { clauses := [], clause_list := [], searchable_texts := []
    embeddings := none, index := none }

/-- Embedding of `PlaybookLoader._create_searchable_text`. -/
def createSearchableText (c : PlaybookClause) : String :=
  c.clause ++ ". " ++ c.clause_definition ++ ". " ++ c.review_instruction

/-- The dict comprehension `{clause.clause: clause for clause in
self.clause_list}` (later entries overwrite earlier ones). -/
def buildClauseDict (cs : List PlaybookClause) : List (String × PlaybookClause) :=
  cs.foldl (fun d c => dictInsert d c.clause c) []

/-- Ways `PlaybookLoader.load` can raise. -/
inductive LoadError where
  | validationErr (field : String)
  | embeddingErr (msg : String)
  | shapeErr
deriving DecidableEq, Repr

/-- Embedding of `PlaybookLoader.load`, lines 28-58, operating on the
parsed JSON list.  The Python method mutates `self` step by step, so a
raise mid-way leaves the fields assigned so far replaced; the returned
state is the state of the instance when the call returns or raises:
first the list comprehension (a validation failure raises before any
assignment), then the assignments to `clause_list`, `clauses` and
`searchable_texts`, then the embedding call (a failure there raises with
those three fields already replaced), then the assignments to
`embeddings` and, via `self.embeddings.shape[1]` (an `IndexError` on an
empty batch), `index`. -/
def load (encode : EmbedFn) (st : LoaderState) (data : List JItem) :
    LoaderState × Option LoadError :=
  match validateItems data with
  | Except.error f => (st, some (LoadError.validationErr f))
  | Except.ok cl =>
    let st1 := { st with clause_list := cl }
    let st2 := { st1 with clauses := buildClauseDict cl }
    let texts := cl.map createSearchableText
    let st3 := { st2 with searchable_texts := texts }
    match encodeAll encode texts with
    | Except.error m => (st3, some (LoadError.embeddingErr m))
    | Except.ok embs =>
      let st4 := { st3 with embeddings := some embs }
      match embs.head? with
      | none => (st4, some LoadError.shapeErr)
      | some v =>
        ({ st4 with index := some { dim := v.length, vectors := embs } }, none)

/-! ### FAISS exact L2 search -/

/-- Squared Euclidean distance (the FAISS `IndexFlatL2` metric). -/
def sqL2 (x y : List ℚ) : ℚ :=
  ((x.zip y).map (fun p => (p.1 - p.2) ^ 2)).sum

/-- Largest finite `float32` (`FLT_MAX`); the distance FAISS leaves in
result slots that were never filled. -/
def fltMax : ℚ := 2 ^ 128 - 2 ^ 104

/-- Stable insertion into a distance-sorted list (ties keep the earlier
element first, matching insertion order). -/
def insertByDist (p : ℤ × ℚ) : List (ℤ × ℚ) → List (ℤ × ℚ)
  | [] => [p]
  | q :: rest => if p.2 < q.2 then p :: q :: rest else q :: insertByDist p rest

/-- Stable sort of `(label, distance)` pairs by ascending distance. -/
def sortByDist (l : List (ℤ × ℚ)) : List (ℤ × ℚ) :=
  l.foldr insertByDist []

/-- `index.search(q, k)` for one query on an `IndexFlatL2`: the `k`
nearest stored vectors by squared L2 distance, ascending; when fewer
than `k` vectors are stored the remaining slots keep label `-1` and
distance `FLT_MAX`. -/
def searchIndex (idx : IndexFlatL2) (q : List ℚ) (k : ℕ) : List (ℤ × ℚ) :=
  let sorted := sortByDist (idx.vectors.enum.map (fun p => ((p.1 : ℤ), sqL2 q p.2)))
  sorted.take k ++ List.replicate (k - sorted.length) ((-1 : ℤ), fltMax)

/-- Python list indexing `l[i]` with negative-index wrap-around;
`none` is an `IndexError`. -/
def pyGet {α : Type} (l : List α) (i : ℤ) : Option α :=
  if 0 ≤ i then l.get? i.toNat
  else if 0 ≤ (l.length : ℤ) + i then l.get? ((l.length : ℤ) + i).toNat
  else none

/-- Ways `PlaybookLoader.find_similar` can raise. -/
inductive FindError where
  | notLoaded
  | embeddingErr (msg : String)
  | invalidK
  | indexOutOfRange
deriving DecidableEq, Repr

/-- The result loop of `find_similar`: `self.clause_list[idx]` for each
returned label, paired with `1.0 / (1.0 + dist)`. -/
def resultsOf (cl : List PlaybookClause) :
    List (ℤ × ℚ) → Except FindError (List (PlaybookClause × ℚ))
  | [] => Except.ok []
  | (i, d) :: rest =>
    match pyGet cl i with
    | none => Except.error FindError.indexOutOfRange
    | some c => do
      let rs ← resultsOf cl rest
      pure ((c, 1 / (1 + d)) :: rs)

/-- Embedding of `PlaybookLoader.find_similar`, lines 74-112: raise
`RuntimeError("Playbook not loaded...")` (the spec's `NotLoadedError`)
when no index exists; encode the query; FAISS itself rejects `k <= 0`
(`FAISS_THROW_IF_NOT(k > 0)`); otherwise search and convert each
`(label, distance)` to an `(entry, similarity)` pair. -/
def find_similar (encode : EmbedFn) (st : LoaderState) (query_text : String)
    (k : ℤ) : Except FindError (List (PlaybookClause × ℚ)) :=
  match st.index with
  | none => Except.error FindError.notLoaded
  | some idx =>
    match encode query_text with
    | Except.error m => Except.error (FindError.embeddingErr m)
    | Except.ok qv =>
      if k ≤ 0 then Except.error FindError.invalidK
      else resultsOf st.clause_list (searchIndex idx qv k.toNat)

/-! ## Semantic matcher (`sandstone/services/semantic_matcher.py`) -/

/-- The body of the outer loop of `SemanticMatcher.match_clauses` for one
document clause: `find_similar(doc_clause.text, k=top_k)`, then
`enumerate(..., start=1)` assigning ranks positionally, skipping
candidates with `similarity < min_similarity`. -/
def matchesForClause (encode : EmbedFn) (st : LoaderState) (top_k : ℤ)
    (min_similarity : ℚ) (dc : DocumentClause) :
    Except FindError (List ClauseMatch) :=
  match find_similar encode st dc.text top_k with
  | Except.error e => Except.error e
  | Except.ok similar =>
    Except.ok (similar.enum.filterMap (fun p =>
      if p.2.2 < min_similarity then none
      else some { document_clause := dc
                  playbook_clause := p.2.1
                  similarity_score := p.2.2
                  rank := p.1 + 1 }))

/-- Embedding of `SemanticMatcher.match_clauses`, lines 19-61: iterate
the document clauses in order, concatenating each clause's surviving
matches; an exception from `find_similar` propagates. -/
def match_clauses (encode : EmbedFn) (st : LoaderState)
    (doc_clauses : List DocumentClause) (top_k : ℤ) (min_similarity : ℚ) :
    Except FindError (List ClauseMatch) :=
  match doc_clauses with
  | [] => Except.ok []
  | dc :: rest => do
    let ms ← matchesForClause encode st top_k min_similarity dc
    let later ← match_clauses encode st rest top_k min_similarity
    pure (ms ++ later)

/-- Embedding of `SemanticMatcher.get_best_matches`, lines 96-116: calls
`match_clauses` with `top_k=1`. -/
def get_best_matches (encode : EmbedFn) (st : LoaderState)
    (doc_clauses : List DocumentClause) (min_similarity : ℚ) :
    Except FindError (List ClauseMatch) :=
  match_clauses encode st doc_clauses 1 min_similarity

/-! ## Concrete data for scenario theorems and witnesses -/

/-- Build a well-formed playbook JSON item with fixed filler fields. -/
def mkItem (name defn instr : String) : JItem :=
  [("clause", JValue.jstr name), ("clause_definition", JValue.jstr defn),
   ("is_required", JValue.jbool true), ("review_instruction", JValue.jstr instr),
   ("ideal", JValue.jstr "i"), ("acceptable", JValue.jstr "a"),
   ("red_flag", JValue.jstr "r"), ("example_ideal_clause", JValue.jstr "e1"),
   ("example_fallback_clause", JValue.jstr "e2")]

/-- The entry `mkItem` validates to. -/
def mkClause (name defn instr : String) : PlaybookClause :=
  { clause := name, clause_definition := defn, is_required := true
    review_instruction := instr, ideal := "i", acceptable := "a"
    red_flag := "r", example_ideal_clause := "e1"
    example_fallback_clause := "e2" }

/-- A deterministic one-dimensional embedding: the text length. -/
def wEncode : EmbedFn := fun s => Except.ok [(s.length : ℚ)]

/-- An embedding function whose external model always fails. -/
def wFailEncode : EmbedFn := fun _ => Except.error "model down"

def wItemX : JItem := mkItem "X" "dx" "ix"

def wItemY : JItem := mkItem "X" "dyy" "iyy"

def wItemZ : JItem := mkItem "Z" "dzzzz" "izzzz"

def wClauseX : PlaybookClause := mkClause "X" "dx" "ix"

def wClauseY : PlaybookClause := mkClause "X" "dyy" "iyy"

def wClauseZ : PlaybookClause := mkClause "Z" "dzzzz" "izzzz"

/-- The state a successful `load` of `[wItemX, wItemZ]` produces
(established by `load_two_entries_eval`). -/
def wLoaded : LoaderState :=
  { clauses := [("X", wClauseX), ("Z", wClauseZ)]
    clause_list := [wClauseX, wClauseZ]
    searchable_texts := ["X. dx. ix", "Z. dzzzz. izzzz"]
    embeddings := some [[9], [15]]
    index := some { dim := 1, vectors := [[9], [15]] } }

/-- The state a successful `load` of `[wItemX]` alone produces
(established by `load_one_entry_eval`). -/
def wLoadedOne : LoaderState :=
  { clauses := [("X", wClauseX)]
    clause_list := [wClauseX]
    searchable_texts := ["X. dx. ix"]
    embeddings := some [[9]]
    index := some { dim := 1, vectors := [[9]] } }

/-- A concrete document clause for matcher scenarios. -/
def wDoc : DocumentClause :=
  { text := "q", section_number := "1.1", section_title := none }

/-! ## Theorems -/

/-- Claim C8: every Document Clause produced by segmentation has text of
length at least 10; an extracted span whose cleaned content is exactly 9
characters is silently dropped, and one of exactly 10 characters is
kept. -/
theorem extract_subsections_length_floor :
    (∀ (ms : List SubsectionMatch) (ts : List (String × String))
        (c : DocumentClause), c ∈ extract_subsections ms ts → 10 ≤ c.text.length)
    ∧ (cleanContent "123456789").length = 9
    ∧ extract_subsections [("1", "1", "123456789")] [] = []
    ∧ (cleanContent "1234567890").length = 10
    ∧ extract_subsections [("1", "1", "1234567890")] [] =
        [{ text := "1234567890", section_number := "1.1", section_title := none }] := by
  refine ⟨?_, by decide, by decide, by decide, by decide⟩
  intro ms ts c hc
  rw [extract_subsections, List.mem_filterMap] at hc
  obtain ⟨m, -, hm⟩ := hc
  dsimp only at hm
  split at hm
  · exact absurd hm (by simp)
  · rename_i h
    injection hm with hm
    subst hm
    dsimp only
    omega

/-- Witness for C8 at the concrete ten-character match. -/
theorem extract_subsections_length_floor_witness :
    10 ≤ (DocumentClause.mk "1234567890" "1.1" none).text.length :=
  extract_subsections_length_floor.1 [("1", "1", "1234567890")] []
    (DocumentClause.mk "1234567890" "1.1" none) (by decide)

/-- Lookup after a dict insertion at the same key. -/
theorem dictGet_dictInsert_self {α : Type} (d : List (String × α))
    (k : String) (v : α) : dictGet (dictInsert d k v) k = some v := by
  induction d with
  | nil => simp [dictInsert, dictGet]
  | cons p rest ih =>
    obtain ⟨k0, v0⟩ := p
    rw [dictInsert]
    cases hk : k0 == k with
    | true => simp [dictGet]
    | false =>
      rw [if_neg (by simp [hk])]
      rw [dictGet, if_neg (by simp [hk])]
      exact ih

/-- Lookup after a dict insertion at a different key. -/
theorem dictGet_dictInsert_ne {α : Type} (d : List (String × α))
    (k n : String) (v : α) (h : (k == n) = false) :
    dictGet (dictInsert d k v) n = dictGet d n := by
  induction d with
  | nil => simp [dictInsert, dictGet, h]
  | cons p rest ih =>
    obtain ⟨k0, v0⟩ := p
    rw [dictInsert]
    cases h0 : k0 == k with
    | true =>
      have hk : k0 = k := by simpa using h0
      subst hk
      rw [if_pos rfl, dictGet, dictGet, if_neg (by simp [h]), if_neg (by simp [h])]
    | false =>
      rw [if_neg (by simp [h0]), dictGet, dictGet]
      cases hn : k0 == n with
      | true => simp
      | false => simpa using ih

/-- The section-title fold resolves a key to the last matching pair. -/
theorem dictGet_foldl_insert (f : String → String) :
    ∀ (ms : List (String × String)) (d : List (String × String)) (n : String),
      dictGet (ms.foldl (fun d p => dictInsert d p.1 (f p.2)) d) n =
        (match (ms.filter (fun p => p.1 == n)).getLast? with
         | some p => some (f p.2)
         | none => dictGet d n) := by
  intro ms
  induction ms with
  | nil => intro d n; simp
  | cons m rest ih =>
    intro d n
    rw [List.foldl_cons, ih]
    by_cases h : m.1 == n
    · rw [List.filter_cons_of_pos (by simpa using h)]
      cases hrest : (rest.filter (fun p => p.1 == n)).getLast? with
      | some p =>
        cases he : rest.filter (fun p => p.1 == n) with
        | nil => rw [he] at hrest; exact absurd hrest (by simp)
        | cons q l =>
          rw [he] at hrest
          rw [List.getLast?_cons_cons, hrest]
      | none =>
        have he : rest.filter (fun p => p.1 == n) = [] := by
          simpa [List.getLast?_eq_none_iff] using hrest
        rw [he]
        have hn : m.1 = n := by simpa using h
        simp only [List.getLast?_singleton]
        rw [← hn, dictGet_dictInsert_self]
    · rw [List.filter_cons_of_neg (by simpa using h)]
      cases hrest : (rest.filter (fun p => p.1 == n)).getLast? with
      | some p => rfl
      | none => exact dictGet_dictInsert_ne d m.1 n (f m.2) (by simpa using h)

/-- Claim C10: when the same top-level section number heads more than one
title-pattern match, the section-title mapping (which
`extract_subsections` uses to resolve each clause's parent heading) keeps
the title of the last such occurrence: later matches overwrite earlier
ones, deterministically.  The concrete conjunct shows a clause under
section 1 resolving to the later of two titles for section 1. -/
theorem extract_section_titles_last_wins :
    (∀ (ms : List (String × String)) (n : String),
      dictGet (extract_section_titles ms) n =
        ((ms.filter (fun p => p.1 == n)).getLast?).map (fun p => pyStrip p.2))
    ∧ extract_subsections [("1", "1", "1234567890")]
        (extract_section_titles [("1", "Alpha"), ("1", "Beta")]) =
        [{ text := "1234567890", section_number := "1.1"
           section_title := some "Beta" }] := by
  constructor
  · intro ms n
    rw [extract_section_titles, dictGet_foldl_insert]
    cases (ms.filter (fun p => p.1 == n)).getLast? with
    | some p => rfl
    | none => simp [dictGet]
  · decide

/-- Evaluation: loading the two distinct-name entries succeeds and
produces exactly `wLoaded`. -/
theorem load_two_entries_eval :
    load wEncode initialState [wItemX, wItemZ] = (wLoaded, none) := by
  simp [load, validateItems, playbookClauseOfJson, jGetStr, jGetBool, dictGet,
    wItemX, wItemZ, mkItem, bind, Except.bind, pure, Except.pure, encodeAll,
    wEncode, createSearchableText, buildClauseDict, dictInsert, initialState,
    wLoaded, wClauseX, wClauseZ, mkClause]
  norm_num [String.length]

/-- Evaluation: loading the single entry succeeds and produces exactly
`wLoadedOne`. -/
theorem load_one_entry_eval :
    load wEncode initialState [wItemX] = (wLoadedOne, none) := by
  simp [load, validateItems, playbookClauseOfJson, jGetStr, jGetBool, dictGet,
    wItemX, mkItem, bind, Except.bind, pure, Except.pure, encodeAll,
    wEncode, createSearchableText, buildClauseDict, dictInsert, initialState,
    wLoadedOne, wClauseX, mkClause]
  norm_num [String.length]

/-- Evaluation: querying the two-entry index with `k = 2` returns both
entries, most similar first (distances `(1-9)^2 = 64` and
`(1-15)^2 = 196`). -/
theorem find_similar_two_eval :
    find_similar wEncode wLoaded "q" 2 =
      Except.ok [(wClauseX, 1 / 65), (wClauseZ, 1 / 197)] := by
  simp [find_similar, wLoaded, wEncode, searchIndex, sortByDist, insertByDist,
    sqL2, List.enum, String.length]
  norm_num [resultsOf, pyGet]

/-- Claim C1, counterexample: `wItemX` and `wItemY` carry the same
clause name `"X"`, yet `load` returns no error at all — a catalogue with
two same-named entries does NOT fail with a `ValidationError`; the
by-name dict comprehension silently keeps the later entry. -/
theorem load_duplicate_names_no_validation_error :
    jGetStr wItemX "clause" = Except.ok "X"
    ∧ jGetStr wItemY "clause" = Except.ok "X"
    ∧ (load wEncode initialState [wItemX, wItemY]).2 = none := by
  exact ⟨rfl, rfl, by decide⟩

/-- Claim C1, amended: loading a catalogue with two same-named entries
succeeds (no `ValidationError`); both entries stay in the entry list and
the by-name map keeps the later one.  Loading the same two entries with
distinct names succeeds, and a subsequent `find_similar` with `k = 2`
returns both entries ordered from most to least similar to the query. -/
theorem load_duplicate_last_wins_and_distinct_ordered :
    ((load wEncode initialState [wItemX, wItemY]).2 = none
      ∧ (load wEncode initialState [wItemX, wItemY]).1.clause_list =
          [wClauseX, wClauseY]
      ∧ dictGet (load wEncode initialState [wItemX, wItemY]).1.clauses "X" =
          some wClauseY)
    ∧ (load wEncode initialState [wItemX, wItemZ] = (wLoaded, none)
      ∧ find_similar wEncode wLoaded "q" 2 =
          Except.ok [(wClauseX, 1 / 65), (wClauseZ, 1 / 197)]
      ∧ ((1 : ℚ) / 197 ≤ 1 / 65)) := by
  exact ⟨⟨by decide, by decide, by decide⟩,
    ⟨load_two_entries_eval, find_similar_two_eval, by norm_num⟩⟩

/-- Claim C2, counterexample: starting from the successfully loaded
state `wLoaded`, a reload whose injected embedding call fails leaves the
entry list REPLACED by the new entries — the previously loaded index
state is not all kept. -/
theorem load_embedding_failure_replaces_entries :
    (load wFailEncode wLoaded [wItemY]).2 =
        some (LoadError.embeddingErr "model down")
    ∧ wLoaded.clause_list = [wClauseX, wClauseZ]
    ∧ (load wFailEncode wLoaded [wItemY]).1.clause_list = [wClauseY]
    ∧ ¬ (load wFailEncode wLoaded [wItemY]).1.clause_list = wLoaded.clause_list := by
  exact ⟨by decide, by decide, by decide, by decide⟩

/-- Claim C2, amended: `load` is atomic only up to the embedding call.
A malformed entry (`ValidationError`) aborts before anything is
replaced, so the whole previous state survives; but a failure of the
injected embedding call happens after the entry list, by-name map and
searchable texts have been replaced by the new catalogue's — only the
previous embeddings and search structure are still in place. -/
theorem load_atomicity_scope (encode : EmbedFn) (st : LoaderState)
    (data : List JItem) :
    (∀ f, (load encode st data).2 = some (LoadError.validationErr f) →
        (load encode st data).1 = st)
    ∧ (∀ m, (load encode st data).2 = some (LoadError.embeddingErr m) →
        (load encode st data).1.embeddings = st.embeddings
        ∧ (load encode st data).1.index = st.index
        ∧ ∃ cl, validateItems data = Except.ok cl
            ∧ (load encode st data).1.clause_list = cl
            ∧ (load encode st data).1.clauses = buildClauseDict cl
            ∧ (load encode st data).1.searchable_texts =
                cl.map createSearchableText) := by
  cases hv : validateItems data with
  | error f0 =>
    refine ⟨fun f hf => ?_, fun m hm => ?_⟩
    · simp [load, hv]
    · simp [load, hv] at hm
  | ok cl =>
    cases he : encodeAll encode (cl.map createSearchableText) with
    | error m0 =>
      refine ⟨fun f hf => ?_, fun m hm => ?_⟩
      · simp [load, hv, he] at hf
      · refine ⟨?_, ?_, cl, rfl, ?_, ?_, ?_⟩ <;> simp [load, hv, he]
    | ok embs =>
      cases hh : embs.head? with
      | none =>
        refine ⟨fun f hf => ?_, fun m hm => ?_⟩
        · simp [load, hv, he, hh] at hf
        · simp [load, hv, he, hh] at hm
      | some v =>
        refine ⟨fun f hf => ?_, fun m hm => ?_⟩
        · simp [load, hv, he, hh] at hf
        · simp [load, hv, he, hh] at hm

/-- Witness for the amended C2: reloading `wLoaded` with one malformed
(empty) item fails validation on field `clause` and leaves the loaded
state exactly as it was. -/
theorem load_atomicity_scope_witness :
    (load wEncode wLoaded [[]]).1 = wLoaded :=
  (load_atomicity_scope wEncode wLoaded [[]]).1 "clause" (by decide)

/-- Unfolding `sortByDist` one element at a time. -/
theorem sortByDist_cons (p : ℤ × ℚ) (l : List (ℤ × ℚ)) :
    sortByDist (p :: l) = insertByDist p (sortByDist l) := rfl

/-- Insertion grows the length by one. -/
theorem insertByDist_length (p : ℤ × ℚ) :
    ∀ l : List (ℤ × ℚ), (insertByDist p l).length = l.length + 1 := by
  intro l
  induction l with
  | nil => rfl
  | cons q rest ih =>
    rw [insertByDist]
    split
    · rfl
    · simpa using ih

/-- The sort preserves length. -/
theorem sortByDist_length (l : List (ℤ × ℚ)) :
    (sortByDist l).length = l.length := by
  induction l with
  | nil => rfl
  | cons p rest ih =>
    rw [sortByDist_cons, insertByDist_length, ih]
    rfl

/-- Membership in an insertion. -/
theorem mem_insertByDist (p x : ℤ × ℚ) :
    ∀ l : List (ℤ × ℚ), x ∈ insertByDist p l ↔ x = p ∨ x ∈ l := by
  intro l
  induction l with
  | nil => simp [insertByDist]
  | cons q rest ih =>
    rw [insertByDist]
    split
    · simp only [List.mem_cons]
    · simp only [List.mem_cons, ih]
      tauto

/-- The sort preserves membership. -/
theorem mem_sortByDist (x : ℤ × ℚ) :
    ∀ l : List (ℤ × ℚ), x ∈ sortByDist l ↔ x ∈ l := by
  intro l
  induction l with
  | nil => simp [sortByDist]
  | cons p rest ih =>
    rw [sortByDist_cons, mem_insertByDist, ih, List.mem_cons]

/-- Insertion into a distance-sorted list keeps it sorted. -/
theorem insertByDist_pairwise (p : ℤ × ℚ) {l : List (ℤ × ℚ)}
    (h : l.Pairwise (fun a b => a.2 ≤ b.2)) :
    (insertByDist p l).Pairwise (fun a b => a.2 ≤ b.2) := by
  induction l with
  | nil => simp [insertByDist]
  | cons q rest ih =>
    rw [List.pairwise_cons] at h
    obtain ⟨hq, hrest⟩ := h
    rw [insertByDist]
    split
    · rename_i hlt
      refine List.Pairwise.cons ?_ (List.Pairwise.cons hq hrest)
      intro x hx
      rcases List.mem_cons.mp hx with hx | hx
      · exact le_of_lt (hx ▸ hlt)
      · exact le_trans (le_of_lt hlt) (hq x hx)
    · rename_i hge
      refine List.Pairwise.cons ?_ (ih hrest)
      intro x hx
      rcases (mem_insertByDist p x rest).mp hx with hx | hx
      · exact hx ▸ le_of_not_lt hge
      · exact hq x hx

/-- The sort output is sorted by ascending distance. -/
theorem sortByDist_pairwise (l : List (ℤ × ℚ)) :
    (sortByDist l).Pairwise (fun a b => a.2 ≤ b.2) := by
  induction l with
  | nil => simp [sortByDist]
  | cons p rest ih => exact sortByDist_cons p rest ▸ insertByDist_pairwise p ih

/-- A squared L2 distance is non-negative. -/
theorem sqL2_nonneg (x y : List ℚ) : 0 ≤ sqL2 x y := by
  refine List.sum_nonneg ?_
  intro v hv
  obtain ⟨p, -, hp⟩ := List.mem_map.mp hv
  exact hp ▸ sq_nonneg _

/-- The padding distance is non-negative. -/
theorem fltMax_nonneg : (0 : ℚ) ≤ fltMax := by norm_num [fltMax]

/-- `search` always returns exactly `k` slots. -/
theorem searchIndex_length (idx : IndexFlatL2) (q : List ℚ) (k : ℕ) :
    (searchIndex idx q k).length = k := by
  rw [searchIndex]
  simp only [List.length_append, List.length_take, List.length_replicate,
    sortByDist_length, List.length_map, List.enum_length]
  omega

/-- Every slot of a search result is a true neighbour or the padding. -/
theorem mem_searchIndex (idx : IndexFlatL2) (q : List ℚ) (k : ℕ)
    (p : ℤ × ℚ) (h : p ∈ searchIndex idx q k) :
    (∃ m ∈ idx.vectors.enum, p = ((m.1 : ℤ), sqL2 q m.2))
    ∨ p = ((-1 : ℤ), fltMax) := by
  rw [searchIndex] at h
  rcases List.mem_append.mp h with h | h
  · left
    have hs := (List.take_sublist k _).mem h
    rw [mem_sortByDist] at hs
    obtain ⟨m, hm, hmp⟩ := List.mem_map.mp hs
    exact ⟨m, hm, hmp.symm⟩
  · right
    exact (List.mem_replicate.mp h).2

/-- Distances in a search result are non-negative. -/
theorem mem_searchIndex_dist_nonneg (idx : IndexFlatL2) (q : List ℚ) (k : ℕ)
    (p : ℤ × ℚ) (h : p ∈ searchIndex idx q k) : 0 ≤ p.2 := by
  rcases mem_searchIndex idx q k p h with ⟨m, -, hp⟩ | hp
  · rw [hp]
    exact sqL2_nonneg q m.2
  · rw [hp]
    exact fltMax_nonneg

/-- Search results come back sorted by ascending distance, provided all
true distances stay below the padding value `FLT_MAX` (always the case
for finite `float32` arithmetic). -/
theorem searchIndex_pairwise (idx : IndexFlatL2) (q : List ℚ) (k : ℕ)
    (hb : ∀ v ∈ idx.vectors, sqL2 q v ≤ fltMax) :
    (searchIndex idx q k).Pairwise (fun a b => a.2 ≤ b.2) := by
  rw [searchIndex]
  rw [List.pairwise_append]
  refine ⟨List.Pairwise.sublist (List.take_sublist _ _) (sortByDist_pairwise _), ?_, ?_⟩
  · rw [List.pairwise_replicate]
    right
    exact le_refl _
  · intro a ha b hb2
    have hbpad := (List.mem_replicate.mp hb2).2
    have has := (List.take_sublist k _).mem ha
    rw [mem_sortByDist] at has
    obtain ⟨m, hm, hmp⟩ := List.mem_map.mp has
    have hv : m.2 ∈ idx.vectors := by
      have := List.mem_map_of_mem Prod.snd hm
      rwa [List.enum_map_snd] at this
    rw [hbpad, ← hmp]
    exact hb m.2 hv

/-- Labels in a search result are valid indices or the padding `-1`. -/
theorem mem_searchIndex_label (idx : IndexFlatL2) (q : List ℚ) (k : ℕ)
    (p : ℤ × ℚ) (h : p ∈ searchIndex idx q k) :
    (0 ≤ p.1 ∧ p.1.toNat < idx.vectors.length) ∨ p.1 = -1 := by
  rcases mem_searchIndex idx q k p h with ⟨m, hm, hp⟩ | hp
  · left
    have hlt : m.1 < idx.vectors.length := by
      have := List.mem_enum_iff_get?.mp hm
      have := List.get?_eq_some.mp this
      exact this.1
    rw [hp]
    exact ⟨Int.ofNat_nonneg m.1, by simpa using hlt⟩
  · right
    rw [hp]

/-- Python negative index `-1` resolves to the last element. -/
theorem pyGet_neg_one {α : Type} (l : List α) (h : l ≠ []) :
    pyGet l (-1) = l.getLast? := by
  rw [pyGet]
  have hlen : 0 < l.length := List.length_pos.mpr h
  rw [if_neg (by norm_num)]
  rw [if_pos (by omega)]
  have ht : ((l.length : ℤ) + (-1)).toNat = l.length - 1 := by omega
  rw [ht]
  rw [List.getLast?_eq_getElem?, List.get?_eq_getElem?]

/-- A non-negative index inside the list resolves to an element. -/
theorem pyGet_of_lt {α : Type} (l : List α) (i : ℤ) (h0 : 0 ≤ i)
    (h1 : i.toNat < l.length) : ∃ c, pyGet l i = some c := by
  rw [pyGet, if_pos h0]
  exact ⟨_, List.get?_eq_get h1⟩

/-- A successful result loop keeps one result per slot. -/
theorem resultsOf_length (cl : List PlaybookClause) :
    ∀ (pairs : List (ℤ × ℚ)) (rs : List (PlaybookClause × ℚ)),
      resultsOf cl pairs = Except.ok rs → rs.length = pairs.length := by
  intro pairs
  induction pairs with
  | nil =>
    intro rs h
    rw [resultsOf] at h
    injection h with h
    rw [← h]
    rfl
  | cons p rest ih =>
    intro rs h
    obtain ⟨i, d⟩ := p
    rw [resultsOf] at h
    cases hg : pyGet cl i with
    | none => rw [hg] at h; exact absurd h (by simp)
    | some c =>
      rw [hg] at h
      cases hr : resultsOf cl rest with
      | error e =>
        rw [hr] at h
        exact absurd h (by simp [bind, Except.bind])
      | ok rs0 =>
        rw [hr] at h
        simp only [bind, Except.bind, pure, Except.pure] at h
        injection h with h
        rw [← h]
        simpa using ih rs0 hr

/-- The similarities of a successful result loop are exactly
`1 / (1 + d)` of the returned distances, in order. -/
theorem resultsOf_map_snd (cl : List PlaybookClause) :
    ∀ (pairs : List (ℤ × ℚ)) (rs : List (PlaybookClause × ℚ)),
      resultsOf cl pairs = Except.ok rs →
      rs.map Prod.snd = pairs.map (fun p => 1 / (1 + p.2)) := by
  intro pairs
  induction pairs with
  | nil =>
    intro rs h
    rw [resultsOf] at h
    injection h with h
    rw [← h]
    rfl
  | cons p rest ih =>
    intro rs h
    obtain ⟨i, d⟩ := p
    rw [resultsOf] at h
    cases hg : pyGet cl i with
    | none => rw [hg] at h; exact absurd h (by simp)
    | some c =>
      rw [hg] at h
      cases hr : resultsOf cl rest with
      | error e =>
        rw [hr] at h
        exact absurd h (by simp [bind, Except.bind])
      | ok rs0 =>
        rw [hr] at h
        simp only [bind, Except.bind, pure, Except.pure] at h
        injection h with h
        rw [← h]
        simpa using ih rs0 hr

/-- The result loop succeeds when every label resolves. -/
theorem resultsOf_ok_exists (cl : List PlaybookClause) :
    ∀ pairs : List (ℤ × ℚ), (∀ p ∈ pairs, ∃ c, pyGet cl p.1 = some c) →
      ∃ rs, resultsOf cl pairs = Except.ok rs := by
  intro pairs
  induction pairs with
  | nil => exact fun _ => ⟨[], rfl⟩
  | cons p rest ih =>
    intro hall
    obtain ⟨i, d⟩ := p
    obtain ⟨c, hc⟩ := hall (i, d) (List.mem_cons_self _ _)
    obtain ⟨rs0, hrs0⟩ := ih (fun x hx => hall x (List.mem_cons_of_mem _ hx))
    refine ⟨(c, 1 / (1 + d)) :: rs0, ?_⟩
    rw [resultsOf, hc, hrs0]
    rfl

/-- The result loop distributes over list append. -/
theorem resultsOf_append (cl : List PlaybookClause) :
    ∀ (l1 l2 : List (ℤ × ℚ)) (rs : List (PlaybookClause × ℚ)),
      resultsOf cl (l1 ++ l2) = Except.ok rs →
      ∃ rs1 rs2, resultsOf cl l1 = Except.ok rs1
        ∧ resultsOf cl l2 = Except.ok rs2 ∧ rs = rs1 ++ rs2
        ∧ rs1.length = l1.length := by
  intro l1
  induction l1 with
  | nil =>
    intro l2 rs h
    exact ⟨[], rs, rfl, h, rfl, rfl⟩
  | cons p rest ih =>
    intro l2 rs h
    obtain ⟨i, d⟩ := p
    rw [List.cons_append, resultsOf] at h
    cases hg : pyGet cl i with
    | none => rw [hg] at h; exact absurd h (by simp)
    | some c =>
      rw [hg] at h
      cases hr : resultsOf cl (rest ++ l2) with
      | error e =>
        rw [hr] at h
        exact absurd h (by simp [bind, Except.bind])
      | ok rs0 =>
        rw [hr] at h
        simp only [bind, Except.bind, pure, Except.pure] at h
        injection h with h
        obtain ⟨rs1, rs2, h1, h2, heq, hlen⟩ := ih l2 rs0 hr
        refine ⟨(c, 1 / (1 + d)) :: rs1, rs2, ?_, h2, ?_, ?_⟩
        · rw [resultsOf, hg, h1]
          rfl
        · rw [← h, heq]
          rfl
        · simpa using hlen

/-- The result loop on padding slots replicates the last entry. -/
theorem resultsOf_replicate (cl : List PlaybookClause) (c : PlaybookClause)
    (h : pyGet cl (-1) = some c) :
    ∀ m : ℕ, resultsOf cl (List.replicate m ((-1 : ℤ), fltMax)) =
      Except.ok (List.replicate m (c, 1 / (1 + fltMax))) := by
  intro m
  induction m with
  | zero => rfl
  | succ n ih =>
    rw [List.replicate_succ, resultsOf, h, ih, List.replicate_succ]
    rfl

/-- Structure of a successful `find_similar` call: an index exists, the
query embedded, `k` was positive, and the result loop succeeded. -/
theorem find_similar_ok_elim (encode : EmbedFn) (st : LoaderState)
    (q : String) (k : ℤ) (rs : List (PlaybookClause × ℚ))
    (h : find_similar encode st q k = Except.ok rs) :
    ∃ idx qv, st.index = some idx ∧ encode q = Except.ok qv ∧ 0 < k ∧
      resultsOf st.clause_list (searchIndex idx qv k.toNat) = Except.ok rs := by
  cases hidx : st.index with
  | none => rw [find_similar, hidx] at h; exact absurd h (by simp)
  | some idx =>
    cases hq : encode q with
    | error m => rw [find_similar, hidx, hq] at h; exact absurd h (by simp)
    | ok qv =>
      simp only [find_similar, hidx, hq] at h
      by_cases hk : k ≤ 0
      · rw [if_pos hk] at h
        exact absurd h (by simp)
      · rw [if_neg hk] at h
        exact ⟨idx, qv, rfl, rfl, by omega, h⟩

/-- A successful `find_similar` returns exactly `k` pairs. -/
theorem find_similar_ok_length (encode : EmbedFn) (st : LoaderState)
    (q : String) (k : ℤ) (rs : List (PlaybookClause × ℚ))
    (h : find_similar encode st q k = Except.ok rs) : rs.length = k.toNat := by
  obtain ⟨idx, qv, -, -, -, hres⟩ := find_similar_ok_elim encode st q k rs h
  rw [resultsOf_length _ _ _ hres, searchIndex_length]

/-- Similarities of a successful `find_similar` are non-negative. -/
theorem find_similar_ok_snd_nonneg (encode : EmbedFn) (st : LoaderState)
    (q : String) (k : ℤ) (rs : List (PlaybookClause × ℚ))
    (h : find_similar encode st q k = Except.ok rs) :
    ∀ p ∈ rs, 0 ≤ p.2 := by
  obtain ⟨idx, qv, -, -, -, hres⟩ := find_similar_ok_elim encode st q k rs h
  intro p hp
  have hmem : p.2 ∈ rs.map Prod.snd := List.mem_map_of_mem Prod.snd hp
  rw [resultsOf_map_snd _ _ _ hres] at hmem
  obtain ⟨sp, hsp, hval⟩ := List.mem_map.mp hmem
  have hd := mem_searchIndex_dist_nonneg idx qv k.toNat sp hsp
  rw [← hval]
  have : (0 : ℚ) < 1 + sp.2 := by linarith
  positivity

/-- The float32-validity bound for the concrete two-entry index: both
true distances stay below `FLT_MAX`. -/
theorem wBoundTwo :
    ∀ v ∈ ({ dim := 1, vectors := [[9], [15]] } : IndexFlatL2).vectors,
      sqL2 [("q".length : ℚ)] v ≤ fltMax := by
  intro v hv
  simp only [List.mem_cons, List.not_mem_nil, or_false] at hv
  rcases hv with h | h <;> subst h <;> norm_num [sqL2, fltMax, String.length]

/-- Claim C4: every `(entry, similarity)` pair returned by
`find_similar` carries `similarity = 1 / (1 + distance)` of the
underlying L2 distance (the similarity column is exactly the image of
the returned distance column under that transform, and distance `0`
maps to similarity `1`), every similarity lies in `[0, 1]`, and
similarity is non-increasing from the first to the last returned pair.
Hypothesis `hb` is the float32 validity bound: every true distance is at
most `FLT_MAX`, as every finite `float32` value is. -/
theorem find_similar_similarity_transform (encode : EmbedFn)
    (st : LoaderState) (q : String) (k : ℤ) (idx : IndexFlatL2)
    (qv : List ℚ) (rs : List (PlaybookClause × ℚ))
    (hidx : st.index = some idx) (hq : encode q = Except.ok qv)
    (hb : ∀ v ∈ idx.vectors, sqL2 qv v ≤ fltMax)
    (h : find_similar encode st q k = Except.ok rs) :
    rs.map Prod.snd =
      (searchIndex idx qv k.toNat).map (fun p => 1 / (1 + p.2))
    ∧ (1 : ℚ) / (1 + 0) = 1
    ∧ (∀ p ∈ rs, 0 ≤ p.2 ∧ p.2 ≤ 1)
    ∧ (rs.map Prod.snd).Chain' (fun a b => b ≤ a) := by
  obtain ⟨idx0, qv0, hidx0, hq0, hk0, hres⟩ :=
    find_similar_ok_elim encode st q k rs h
  rw [hidx] at hidx0
  injection hidx0 with hidx0
  rw [hq] at hq0
  injection hq0 with hq0
  subst hidx0
  subst hq0
  have hmap := resultsOf_map_snd _ _ _ hres
  refine ⟨hmap, by norm_num, ?_, ?_⟩
  · intro p hp
    refine ⟨find_similar_ok_snd_nonneg encode st q k rs h p hp, ?_⟩
    have hmem : p.2 ∈ rs.map Prod.snd := List.mem_map_of_mem Prod.snd hp
    rw [hmap] at hmem
    obtain ⟨sp, hsp, hval⟩ := List.mem_map.mp hmem
    have hd := mem_searchIndex_dist_nonneg idx qv k.toNat sp hsp
    rw [← hval, div_le_one (by linarith)]
    linarith
  · rw [hmap]
    have hpw := searchIndex_pairwise idx qv k.toNat hb
    have hpw2 : (searchIndex idx qv k.toNat).Pairwise
        (fun a b => (1 : ℚ) / (1 + b.2) ≤ 1 / (1 + a.2)) := by
      refine hpw.imp_of_mem ?_
      intro a b ha hb2 hle
      have h0a := mem_searchIndex_dist_nonneg idx qv k.toNat a ha
      exact one_div_le_one_div_of_le (by linarith) (by linarith)
    exact (List.pairwise_map.mpr hpw2).chain'

/-- Witness for C4: the first pair of the concrete two-entry query has
similarity in `[0, 1]`. -/
theorem find_similar_similarity_transform_witness :
    0 ≤ ((1 : ℚ) / 65) ∧ ((1 : ℚ) / 65) ≤ 1 :=
  (find_similar_similarity_transform wEncode wLoaded "q" 2
      { dim := 1, vectors := [[9], [15]] } [("q".length : ℚ)]
      [(wClauseX, 1 / 65), (wClauseZ, 1 / 197)] rfl rfl wBoundTwo
      find_similar_two_eval).2.2.1 (wClauseX, 1 / 65) (by simp)

/-- The batch embedding preserves length. -/
theorem encodeAll_length (encode : EmbedFn) :
    ∀ (ts : List String) (embs : List (List ℚ)),
      encodeAll encode ts = Except.ok embs → embs.length = ts.length := by
  intro ts
  induction ts with
  | nil =>
    intro embs h
    rw [encodeAll] at h
    injection h with h
    rw [← h]
    rfl
  | cons t rest ih =>
    intro embs h
    rw [encodeAll] at h
    cases he : encode t with
    | error m =>
      rw [he] at h
      exact absurd h (by simp [bind, Except.bind, Functor.map, Except.map])
    | ok v =>
      rw [he] at h
      cases hr : encodeAll encode rest with
      | error m =>
        rw [hr] at h
        exact absurd h (by simp [bind, Except.bind, Functor.map, Except.map])
      | ok vs =>
        rw [hr] at h
        simp only [bind, Except.bind, pure, Except.pure, Functor.map,
          Except.map] at h
        injection h with h
        rw [← h]
        simpa using ih vs hr

/-- Structure of a successful `load`: what the final state contains. -/
theorem load_ok_elim (encode : EmbedFn) (st0 st : LoaderState)
    (data : List JItem) (h : load encode st0 data = (st, none)) :
    ∃ cl embs v, validateItems data = Except.ok cl
      ∧ encodeAll encode (cl.map createSearchableText) = Except.ok embs
      ∧ embs.head? = some v
      ∧ st.clause_list = cl
      ∧ st.index = some { dim := v.length, vectors := embs }
      ∧ embs.length = cl.length ∧ cl ≠ [] := by
  cases hv : validateItems data with
  | error f =>
    simp only [load, hv] at h
    simp at h
  | ok cl =>
    cases he : encodeAll encode (cl.map createSearchableText) with
    | error m =>
      simp only [load, hv, he] at h
      simp at h
    | ok embs =>
      cases hh : embs.head? with
      | none =>
        simp only [load, hv, he, hh] at h
        simp at h
      | some v =>
        simp only [load, hv, he, hh] at h
        have hlen : embs.length = cl.length := by
          rw [encodeAll_length encode _ _ he, List.length_map]
        have hne : cl ≠ [] := by
          intro hnil
          rw [hnil] at hlen
          have hemb : embs = [] := List.length_eq_zero.mp hlen
          rw [hemb] at hh
          exact absurd hh (by simp)
        injection h with h1 h2
        refine ⟨cl, embs, v, rfl, he, hh, ?_, ?_, hlen, hne⟩
        · rw [← h1]
        · rw [← h1]

/-- Claim C5: `find_similar` invoked before any successful load fails
with the not-loaded error (the `RuntimeError("Playbook not loaded...")`
the spec calls `NotLoadedError`); after a successful load, a call with
positive `k` and a working embedder succeeds. -/
theorem find_similar_not_loaded_then_loaded :
    (∀ (encode : EmbedFn) (q : String) (k : ℤ),
        find_similar encode initialState q k =
          Except.error FindError.notLoaded)
    ∧ (∀ (encode : EmbedFn) (data : List JItem) (st : LoaderState)
          (q : String) (qv : List ℚ) (k : ℤ),
        load encode initialState data = (st, none) → 0 < k →
        encode q = Except.ok qv →
        ∃ rs, find_similar encode st q k = Except.ok rs) := by
  constructor
  · intro encode q k
    rfl
  · intro encode data st q qv k hload hk hq
    obtain ⟨cl, embs, v, -, -, -, hcl, hdx, hlen, hne⟩ :=
      load_ok_elim encode initialState st data hload
    have hvalid : ∀ p ∈ searchIndex { dim := v.length, vectors := embs } qv
        k.toNat, ∃ c, pyGet st.clause_list p.1 = some c := by
      intro p hp
      rcases mem_searchIndex_label _ qv k.toNat p hp with ⟨h0, h1⟩ | hneg
      · refine pyGet_of_lt st.clause_list p.1 h0 ?_
        simpa [hcl, ← hlen] using h1
      · rw [hneg, pyGet_neg_one st.clause_list (by simp [hcl, hne])]
        rw [List.getLast?_eq_getLast _ (by simp [hcl, hne])]
        exact ⟨_, rfl⟩
    obtain ⟨rs, hrs⟩ := resultsOf_ok_exists st.clause_list _ hvalid
    refine ⟨rs, ?_⟩
    simp only [find_similar, hdx, hq]
    rw [if_neg (by omega)]
    exact hrs

/-- Witness for C5: the concrete two-entry scenario, before and after
load. -/
theorem find_similar_not_loaded_then_loaded_witness :
    find_similar wEncode initialState "q" 2 =
        Except.error FindError.notLoaded
    ∧ ∃ rs, find_similar wEncode wLoaded "q" 2 = Except.ok rs :=
  ⟨find_similar_not_loaded_then_loaded.1 wEncode "q" 2,
   find_similar_not_loaded_then_loaded.2 wEncode [wItemX, wItemZ] wLoaded
     "q" [("q".length : ℚ)] 2 load_two_entries_eval (by decide) rfl⟩

/-- Evaluation: querying the one-entry index with `k = 2` returns TWO
pairs; the second is the FAISS padding slot (label `-1`, distance
`FLT_MAX`), which Python negative indexing resolves to the only entry. -/
theorem find_similar_pad_eval :
    find_similar wEncode wLoadedOne "q" 2 =
      Except.ok [(wClauseX, 1 / 65), (wClauseX, 1 / (1 + fltMax))] := by
  simp [find_similar, wLoadedOne, wEncode, searchIndex, sortByDist,
    insertByDist, sqL2, List.enum, String.length]
  norm_num [resultsOf, pyGet]

/-- Claim C3, counterexample: with exactly one loaded entry, `k = 2` is
NOT clamped to the entry count — two pairs are returned, and the second
is not a genuine neighbour but the padding duplicate of the only entry
at sentinel similarity. -/
theorem find_similar_no_clamp_cex :
    wLoadedOne.clause_list.length = 1
    ∧ find_similar wEncode wLoadedOne "q" 2 =
        Except.ok [(wClauseX, 1 / 65), (wClauseX, 1 / (1 + fltMax))] :=
  ⟨by decide, find_similar_pad_eval⟩

/-- Claim C3, amended: `k ≤ 0` fails fast (FAISS itself rejects it) —
but a `k` larger than the number of loaded entries is NOT clamped:
`find_similar` returns exactly `k` pairs, the slots beyond the entry
count being FAISS padding (label `-1`, distance `FLT_MAX`) that Python
negative indexing resolves to the LAST entry, at sentinel similarity
`1 / (1 + FLT_MAX)`. -/
theorem find_similar_k_behavior (encode : EmbedFn) (st : LoaderState)
    (q : String) (k : ℤ) (idx : IndexFlatL2) (qv : List ℚ)
    (hidx : st.index = some idx) (hq : encode q = Except.ok qv) :
    (k ≤ 0 → find_similar encode st q k = Except.error FindError.invalidK)
    ∧ (∀ rs, find_similar encode st q k = Except.ok rs →
        rs.length = k.toNat
        ∧ (idx.vectors.length = st.clause_list.length →
            ∀ h0 : st.clause_list ≠ [],
              rs.drop st.clause_list.length =
                List.replicate (k.toNat - st.clause_list.length)
                  (st.clause_list.getLast h0, 1 / (1 + fltMax)))) := by
  constructor
  · intro hk
    simp only [find_similar, hidx, hq]
    rw [if_pos hk]
  · intro rs hok
    refine ⟨find_similar_ok_length encode st q k rs hok, ?_⟩
    intro hlen h0
    obtain ⟨idx0, qv0, hidx0, hq0, hk0, hres⟩ :=
      find_similar_ok_elim encode st q k rs hok
    rw [hidx] at hidx0
    injection hidx0 with hidx0
    rw [hq] at hq0
    injection hq0 with hq0
    subst hidx0
    subst hq0
    rw [searchIndex] at hres
    obtain ⟨rs1, rs2, h1, h2, heq, hlen1⟩ := resultsOf_append _ _ _ _ hres
    have hsorted : (sortByDist (idx.vectors.enum.map
        (fun p => ((p.1 : ℤ), sqL2 qv p.2)))).length = idx.vectors.length := by
      rw [sortByDist_length, List.length_map, List.enum_length]
    have hpadget : pyGet st.clause_list (-1) =
        some (st.clause_list.getLast h0) := by
      rw [pyGet_neg_one st.clause_list h0, List.getLast?_eq_getLast _ h0]
    have h2rep := resultsOf_replicate st.clause_list _ hpadget
      (k.toNat - (sortByDist (idx.vectors.enum.map
        (fun p => ((p.1 : ℤ), sqL2 qv p.2)))).length)
    rw [h2] at h2rep
    injection h2rep with h2rep
    by_cases hcase : k.toNat ≤ st.clause_list.length
    · have hrslen : rs.length = k.toNat :=
        find_similar_ok_length encode st q k rs hok
      rw [List.drop_eq_nil_of_le (by omega)]
      rw [Nat.sub_eq_zero_of_le hcase]
      rfl
    · have htake : rs1.length = st.clause_list.length := by
        rw [hlen1, List.length_take]
        rw [hsorted, hlen]
        omega
      rw [heq, ← htake, List.drop_left, h2rep, hsorted, hlen, htake]

/-- Witness for the amended C3: `k = 0` fails fast on the loaded
one-entry state, and the successful `k = 2` call on it returned exactly
`(2 : ℤ).toNat` pairs. -/
theorem find_similar_k_behavior_witness :
    find_similar wEncode wLoadedOne "q" 0 = Except.error FindError.invalidK
    ∧ [(wClauseX, (1 : ℚ) / 65), (wClauseX, 1 / (1 + fltMax))].length =
        (2 : ℤ).toNat :=
  ⟨(find_similar_k_behavior wEncode wLoadedOne "q" 0
      { dim := 1, vectors := [[9]] } [("q".length : ℚ)] rfl rfl).1 (by decide),
   ((find_similar_k_behavior wEncode wLoadedOne "q" 2
      { dim := 1, vectors := [[9]] } [("q".length : ℚ)] rfl rfl).2 _
      find_similar_pad_eval).1⟩

/-- A `filterMap` that never filters is a `map`. -/
theorem filterMap_eq_map_of_forall {α β : Type} (f : α → Option β)
    (g : α → β) :
    ∀ l : List α, (∀ x ∈ l, f x = some (g x)) → l.filterMap f = l.map g := by
  intro l
  induction l with
  | nil => intro h; rfl
  | cons a rest ih =>
    intro h
    rw [List.filterMap_cons, h a (List.mem_cons_self a rest), List.map_cons,
      ih (fun x hx => h x (List.mem_cons_of_mem a hx))]

/-- Claim C6: with `min_similarity = 0`, the Clause Matches emitted for
one document clause (the inner loop of `match_clauses`) carry ranks that
are exactly `1..k` — no gaps, no repeats — and are, in order, exactly
the `k` candidates the index returned for that clause, in
descending-similarity order as returned. -/
theorem match_ranks_contiguous (encode : EmbedFn) (st : LoaderState)
    (top_k : ℤ) (dc : DocumentClause) (ms : List ClauseMatch)
    (h : matchesForClause encode st top_k 0 dc = Except.ok ms) :
    ms.map ClauseMatch.rank = List.range' 1 top_k.toNat
    ∧ ∃ rs, find_similar encode st dc.text top_k = Except.ok rs
        ∧ ms.map (fun m => (m.playbook_clause, m.similarity_score)) = rs := by
  cases hf : find_similar encode st dc.text top_k with
  | error e =>
    simp only [matchesForClause, hf] at h
    exact absurd h (by simp)
  | ok rs =>
    simp only [matchesForClause, hf, Except.ok.injEq] at h
    have hnn := find_similar_ok_snd_nonneg encode st dc.text top_k rs hf
    have hms : ms = rs.enum.map (fun p =>
        ({ document_clause := dc, playbook_clause := p.2.1
           similarity_score := p.2.2, rank := p.1 + 1 } : ClauseMatch)) := by
      rw [← h]
      refine filterMap_eq_map_of_forall _ _ rs.enum ?_
      intro p hp
      rw [if_neg (not_lt.mpr ?_)]
      have hmem : p.2 ∈ rs := by
        have hm := List.mem_map_of_mem Prod.snd hp
        rwa [List.enum_map_snd] at hm
      exact hnn p.2 hmem
    have hlen : rs.length = top_k.toNat :=
      find_similar_ok_length encode st dc.text top_k rs hf
    constructor
    · rw [hms, List.map_map]
      have hfst : (rs.enum.map fun p => p.1 + 1) = List.range' 1 rs.length := by
        have h1 : (rs.enum.map fun p => p.1 + 1) =
            (rs.enum.map Prod.fst).map (fun n => n + 1) := by
          rw [List.map_map]
          rfl
        rw [h1, List.enum_map_fst, List.range'_eq_map_range]
        refine List.map_congr_left ?_
        intro a ha
        omega
      rw [← hlen]
      exact hfst
    · refine ⟨rs, rfl, ?_⟩
      rw [hms, List.map_map]
      have h2 : ((fun m : ClauseMatch => (m.playbook_clause, m.similarity_score)) ∘
          (fun p : ℕ × (PlaybookClause × ℚ) =>
            ({ document_clause := dc, playbook_clause := p.2.1
               similarity_score := p.2.2, rank := p.1 + 1 } : ClauseMatch))) =
          Prod.snd := by
        funext p
        rfl
      rw [h2, List.enum_map_snd]

/-- Evaluation: the inner matcher loop on the two-entry index with
`top_k = 2`, threshold `0`. -/
theorem matches_for_clause_eval :
    matchesForClause wEncode wLoaded 2 0 wDoc =
      Except.ok [{ document_clause := wDoc, playbook_clause := wClauseX,
                   similarity_score := 1 / 65, rank := 1 },
                 { document_clause := wDoc, playbook_clause := wClauseZ,
                   similarity_score := 1 / 197, rank := 2 }] := by
  have hd : wDoc.text = "q" := rfl
  simp only [matchesForClause, hd, find_similar_two_eval, List.enum,
    List.enumFrom, List.filterMap_cons, List.filterMap_nil]
  norm_num

/-- Witness for C6 at the concrete two-entry query. -/
theorem match_ranks_contiguous_witness :
    ([{ document_clause := wDoc, playbook_clause := wClauseX,
        similarity_score := (1 : ℚ) / 65, rank := 1 },
      { document_clause := wDoc, playbook_clause := wClauseZ,
        similarity_score := (1 : ℚ) / 197, rank := 2 }] :
      List ClauseMatch).map ClauseMatch.rank = List.range' 1 (2 : ℤ).toNat :=
  (match_ranks_contiguous wEncode wLoaded 2 wDoc _ matches_for_clause_eval).1

/-- Survivor count of the similarity filter is antitone in the
threshold. -/
theorem filterMap_threshold_length {β γ : Type} (t1 t2 : ℚ) (hle : t1 ≤ t2)
    (sim : β → ℚ) (g : β → γ) :
    ∀ l : List β,
      (l.filterMap (fun p => if sim p < t2 then none else some (g p))).length ≤
      (l.filterMap (fun p => if sim p < t1 then none else some (g p))).length := by
  intro l
  induction l with
  | nil => exact le_refl _
  | cons a rest ih =>
    rw [List.filterMap_cons, List.filterMap_cons]
    by_cases h2 : sim a < t2
    · rw [if_pos h2]
      by_cases h1 : sim a < t1
      · rw [if_pos h1]
        exact ih
      · rw [if_neg h1]
        exact le_trans ih (by simp)
    · rw [if_neg h2, if_neg (fun h1 => h2 (lt_of_lt_of_le h1 hle))]
      simpa using ih

/-- Claim C7: for fixed document clauses and `top_k`, the matcher is
antitone in the threshold — with `t1 ≤ t2`, the run at `t2` emits no
more Clause Matches than the run at `t1`. -/
theorem match_threshold_antitone (encode : EmbedFn) (st : LoaderState)
    (top_k : ℤ) (t1 t2 : ℚ) (hle : t1 ≤ t2) :
    ∀ (dcs : List DocumentClause) (m1 m2 : List ClauseMatch),
      match_clauses encode st dcs top_k t1 = Except.ok m1 →
      match_clauses encode st dcs top_k t2 = Except.ok m2 →
      m2.length ≤ m1.length := by
  intro dcs
  induction dcs with
  | nil =>
    intro m1 m2 h1 h2
    simp only [match_clauses, Except.ok.injEq] at h1 h2
    rw [← h1, ← h2]
  | cons dc rest ih =>
    intro m1 m2 h1 h2
    cases hf : find_similar encode st dc.text top_k with
    | error e =>
      simp only [match_clauses, matchesForClause, hf, bind, Except.bind] at h1
      exact absurd h1 (by simp)
    | ok rs =>
      cases hr1 : match_clauses encode st rest top_k t1 with
      | error e =>
        simp only [match_clauses, matchesForClause, hf, hr1, bind,
          Except.bind] at h1
        exact absurd h1 (by simp)
      | ok rest1 =>
        cases hr2 : match_clauses encode st rest top_k t2 with
        | error e =>
          simp only [match_clauses, matchesForClause, hf, hr2, bind,
            Except.bind] at h2
          exact absurd h2 (by simp)
        | ok rest2 =>
          simp only [match_clauses, matchesForClause, hf, hr1, bind,
            Except.bind, pure, Except.pure, Except.ok.injEq] at h1
          simp only [match_clauses, matchesForClause, hf, hr2, bind,
            Except.bind, pure, Except.pure, Except.ok.injEq] at h2
          rw [← h1, ← h2, List.length_append, List.length_append]
          have hper := filterMap_threshold_length t1 t2 hle
            (fun p : ℕ × (PlaybookClause × ℚ) => p.2.2)
            (fun p : ℕ × (PlaybookClause × ℚ) =>
              ({ document_clause := dc, playbook_clause := p.2.1
                 similarity_score := p.2.2, rank := p.1 + 1 } : ClauseMatch))
            rs.enum
          exact Nat.add_le_add hper (ih rest1 rest2 hr1 hr2)

/-- Evaluation: matching the single clause at threshold `0` keeps both
candidates. -/
theorem match_clauses_zero_eval :
    match_clauses wEncode wLoaded [wDoc] 2 0 =
      Except.ok [{ document_clause := wDoc, playbook_clause := wClauseX,
                   similarity_score := 1 / 65, rank := 1 },
                 { document_clause := wDoc, playbook_clause := wClauseZ,
                   similarity_score := 1 / 197, rank := 2 }] := by
  simp only [match_clauses, matches_for_clause_eval, bind, Except.bind, pure,
    Except.pure, List.append_nil]

/-- Evaluation: matching the single clause at threshold `1/100` drops
the second candidate (`1/197 < 1/100`). -/
theorem match_clauses_thresh_eval :
    match_clauses wEncode wLoaded [wDoc] 2 (1 / 100) =
      Except.ok [{ document_clause := wDoc, playbook_clause := wClauseX,
                   similarity_score := 1 / 65, rank := 1 }] := by
  have hone : matchesForClause wEncode wLoaded 2 (1 / 100) wDoc =
      Except.ok [{ document_clause := wDoc, playbook_clause := wClauseX,
                   similarity_score := 1 / 65, rank := 1 }] := by
    have hd : wDoc.text = "q" := rfl
    simp only [matchesForClause, hd, find_similar_two_eval, List.enum,
      List.enumFrom, List.filterMap_cons, List.filterMap_nil]
    norm_num
  simp only [match_clauses, hone, bind, Except.bind, pure, Except.pure,
    List.append_nil]

/-- The concrete threshold pair used in the C7 witness. -/
theorem wThreshLe : (0 : ℚ) ≤ 1 / 100 := by norm_num

/-- Witness for C7: raising the threshold from `0` to `1/100` shrinks
the concrete match list from two to one. -/
theorem match_threshold_antitone_witness :
    ([{ document_clause := wDoc, playbook_clause := wClauseX,
        similarity_score := (1 : ℚ) / 65, rank := 1 }] :
      List ClauseMatch).length ≤
    ([{ document_clause := wDoc, playbook_clause := wClauseX,
        similarity_score := (1 : ℚ) / 65, rank := 1 },
      { document_clause := wDoc, playbook_clause := wClauseZ,
        similarity_score := (1 : ℚ) / 197, rank := 2 }] :
      List ClauseMatch).length :=
  match_threshold_antitone wEncode wLoaded 2 0 (1 / 100) wThreshLe [wDoc] _ _
    match_clauses_zero_eval match_clauses_thresh_eval

/-- Claim C9: `get_best_matches` is definitionally `match_clauses` with
`top_k = 1` and the same threshold, and the inner loop with `top_k = 1`
emits at most one Clause Match per document clause. -/
theorem get_best_matches_refines_match :
    (∀ (encode : EmbedFn) (st : LoaderState) (dcs : List DocumentClause)
        (t : ℚ), get_best_matches encode st dcs t =
          match_clauses encode st dcs 1 t)
    ∧ (∀ (encode : EmbedFn) (st : LoaderState) (t : ℚ)
        (dc : DocumentClause) (ms : List ClauseMatch),
        matchesForClause encode st 1 t dc = Except.ok ms → ms.length ≤ 1) := by
  constructor
  · intro encode st dcs t
    rfl
  · intro encode st t dc ms h
    cases hf : find_similar encode st dc.text 1 with
    | error e =>
      simp only [matchesForClause, hf] at h
      exact absurd h (by simp)
    | ok rs =>
      simp only [matchesForClause, hf, Except.ok.injEq] at h
      have hlen : rs.length = (1 : ℤ).toNat :=
        find_similar_ok_length encode st dc.text 1 rs hf
      calc ms.length ≤ rs.enum.length := by
            rw [← h]
            exact List.length_filterMap_le _ _
        _ = rs.length := List.enum_length
        _ ≤ 1 := by rw [hlen]; rfl

/-- Evaluation: the inner matcher loop with `top_k = 1`, threshold `0`,
on the two-entry index. -/
theorem matches_top1_eval :
    matchesForClause wEncode wLoaded 1 0 wDoc =
      Except.ok [{ document_clause := wDoc, playbook_clause := wClauseX,
                   similarity_score := 1 / 65, rank := 1 }] := by
  have hone : find_similar wEncode wLoaded "q" 1 =
      Except.ok [(wClauseX, 1 / 65)] := by
    simp [find_similar, wLoaded, wEncode, searchIndex, sortByDist,
      insertByDist, sqL2, List.enum, String.length]
    norm_num [resultsOf, pyGet]
  have hd : wDoc.text = "q" := rfl
  simp only [matchesForClause, hd, hone, List.enum, List.enumFrom,
    List.filterMap_cons, List.filterMap_nil]
  norm_num

/-- Witness for C9: the concrete `top_k = 1` run emits one match. -/
theorem get_best_matches_refines_match_witness :
    ([{ document_clause := wDoc, playbook_clause := wClauseX,
        similarity_score := (1 : ℚ) / 65, rank := 1 }] :
      List ClauseMatch).length ≤ 1 :=
  get_best_matches_refines_match.2 wEncode wLoaded 0 wDoc _ matches_top1_eval

end Sandstone
